import Mathlib

/-!
# Verification of the test-analytics ingestion backend

Shallow embedding of the core ingestion pipeline of the repository
(token-based authentication, payload validation, idempotent run storage)
and proofs of its specified properties.

JavaScript runtime values appearing in request bodies are modelled by
`JsVal`; a missing field / `undefined` is modelled by `Option JsVal`
(`none` = absent).  The MongoDB `test_runs` collection together with its
unique index on `(project_id, run_id)` (created in `src/db.js`,
`createIndexes`) is modelled as a list of stored records plus an insert
operation that atomically refuses a second record with the same key.
-/

namespace Backend

/-- A JavaScript (JSON) runtime value, as delivered by `express.json()`. -/
inductive JsVal where
  | str : String → JsVal
  | num : Int → JsVal
  | boolean : Bool → JsVal
  | null : JsVal
  | arr : List JsVal → JsVal
  | obj : List (String × JsVal) → JsVal

mutual

/-- Structural equality of JavaScript values (MongoDB's notion of key
equality for the unique index). -/
def beqJsVal : JsVal → JsVal → Bool
  | .str a, .str b => a == b
  | .num a, .num b => a == b
  | .boolean a, .boolean b => a == b
  | .null, .null => true
  | .arr a, .arr b => beqJsList a b
  | .obj a, .obj b => beqJsPairs a b
  | _, _ => false

/-- Elementwise equality of JavaScript arrays. -/
def beqJsList : List JsVal → List JsVal → Bool
  | [], [] => true
  | x :: xs, y :: ys => beqJsVal x y && beqJsList xs ys
  | _, _ => false

/-- Elementwise equality of JavaScript object bindings. -/
def beqJsPairs : List (String × JsVal) → List (String × JsVal) → Bool
  | [], [] => true
  | (k₁, v₁) :: xs, (k₂, v₂) :: ys => k₁ == k₂ && beqJsVal v₁ v₂ && beqJsPairs xs ys
  | _, _ => false

end

/-- Equality of possibly-absent JavaScript values. -/
def beqJsOpt : Option JsVal → Option JsVal → Bool
  | none, none => true
  | some a, some b => beqJsVal a b
  | _, _ => false

/-- JavaScript truthiness of a value. -/
def truthy : JsVal → Bool
  | .str s => !(s == "")
  | .num n => !(n == 0)
  | .boolean b => b
  | .null => false
  | .arr _ => true
  | .obj _ => true

/-- Truthiness of a possibly-absent value (`undefined` is falsy). -/
def truthyOpt : Option JsVal → Bool
  | some v => truthy v
  | none => false

/-- Whether `typeof v === 'string'`. -/
def isStringOpt : Option JsVal → Bool
  | some (.str _) => true
  | _ => false

/-- Whether `typeof v === 'number'`. -/
def isNumberOpt : Option JsVal → Bool
  | some (.num _) => true
  | _ => false

/-- Whether `typeof v === 'object'` (in JavaScript this is true for plain objects,
arrays and `null`). -/
def isObjTypeOpt : Option JsVal → Bool
  | some (.obj _) => true
  | some (.arr _) => true
  | some .null => true
  | _ => false

/-- Look a key up in a JavaScript object (first binding wins). -/
def jfield (kvs : List (String × JsVal)) (k : String) : Option JsVal :=
  (kvs.find? (fun p => p.1 == k)).map Prod.snd

/-- Property access `v[k]` on a value that is not `null`/`undefined`:
objects yield their binding, every other value yields `undefined`. -/
def jprop : JsVal → String → Option JsVal
  | .obj kvs, k => jfield kvs k
  | _, _ => none

/-- Property access on a possibly-absent value, with the access guarded
elsewhere against `null`/`undefined` (which would throw in JavaScript). -/
def jpropOpt (v : Option JsVal) (k : String) : Option JsVal :=
  match v with
  | some u => jprop u k
  | none => none

/-! Run Validator

Embedding of `validateTestRun` from the validation middleware of the rich
(MongoDB/MVC) variant.  The function collects all violations in one list;
it is parameterised by `parseDateOk`, the oracle standing for JavaScript's
`!isNaN(new Date(s).getTime())`.  A `none` result models the `TypeError`
thrown when a `null` array element has a property accessed. -/

def runIdReqMsg : String := "run_id is required and must be a string"

def runIdEmptyMsg : String := "run_id cannot be empty"

def runIdNamespaceMsg : String :=
  "run_id must start with \"tr_\" prefix (e.g., tr_my_test_run_123)"

def runIdLenMsg : String :=
  "run_id must have at least one character after \"tr_\" prefix"

def envReqMsg : String :=
  "environment is required and must be a string (e.g., \"staging\", \"production\")"

def tsReqMsg : String := "timestamp is required and must be a string"

def tsParseMsg : String := "timestamp must be a valid ISO 8601 date string"

def summaryObjMsg : String := "summary is required and must be an object"

def summaryCounterMsg (k : String) : String :=
  s!"summary.{k} must be a non-negative number"

def suitesArrMsg : String := "test_suites must be an array"

def suiteNameMsg (i : Nat) : String :=
  s!"test_suites[{i}].suite_name is required and must be a string"

def suiteCounterMsg (i : Nat) (k : String) : String :=
  s!"test_suites[{i}].{k} must be a non-negative number"

def suiteCasesArrMsg (i : Nat) : String :=
  s!"test_suites[{i}].test_cases must be an array"

def caseNameMsg (i j : Nat) : String :=
  s!"test_suites[{i}].test_cases[{j}].name is required"

def caseStatusMsg (i j : Nat) : String :=
  s!"test_suites[{i}].test_cases[{j}].status must be one of: passed, failed, flaky, skipped"

def caseDurationMsg (i j : Nat) : String :=
  s!"test_suites[{i}].test_cases[{j}].duration_ms must be a non-negative number"

/-- Whether the first character list starts with the second
(JavaScript's `String.prototype.startsWith`, over code points). -/
def charsStartWith : List Char → List Char → Bool
  | _, [] => true
  | [], _ :: _ => false
  | c :: cs, d :: ds => c == d && charsStartWith cs ds

/-- The common whitespace characters removed by
`String.prototype.trim` (the payloads in scope are ASCII). -/
def isJsWhitespace (c : Char) : Bool :=
  c == ' ' || c == '\t' || c == '\n' || c == '\r'

/-- The result of `s.trim()`, as a character list. -/
def jsTrim (s : String) : List Char :=
  ((s.data.dropWhile isJsWhitespace).reverse.dropWhile isJsWhitespace).reverse

/-- The check `typeof x !== 'number' || x < 0`, reported with the given message. -/
def nonNegNumErrors (v : Option JsVal) (msg : String) : List String :=
  match v with
  | some (.num n) => if n < 0 then [msg] else []
  | _ => [msg]

/-- The `run_id` checks (an if/else-if cascade: only the first failing
check of this field is reported). -/
def runIdErrors (v : Option JsVal) : List String :=
  if !truthyOpt v || !isStringOpt v then [runIdReqMsg]
  else
    match v with
    | some (.str s) =>
      if (jsTrim s).length == 0 then [runIdEmptyMsg]
      else if !charsStartWith s.data "tr_".data then [runIdNamespaceMsg]
      else if s.data.length < 4 then [runIdLenMsg]
      else []
    | _ => []

/-- The `environment` check. -/
def environmentErrors (v : Option JsVal) : List String :=
  if !truthyOpt v || !isStringOpt v then [envReqMsg] else []

/-- The `timestamp` checks. -/
def timestampErrors (parseDateOk : String → Bool) (v : Option JsVal) : List String :=
  if !truthyOpt v || !isStringOpt v then [tsReqMsg]
  else
    match v with
    | some (.str s) => if !parseDateOk s then [tsParseMsg] else []
    | _ => []

/-- The `summary` checks: the value must be a truthy `object`, and each of
the six counters must be a non-negative number. -/
def summaryErrors (v : Option JsVal) : List String :=
  if !truthyOpt v || !isObjTypeOpt v then [summaryObjMsg]
  else
    nonNegNumErrors (jpropOpt v "total_test_cases") (summaryCounterMsg "total_test_cases") ++
    nonNegNumErrors (jpropOpt v "passed") (summaryCounterMsg "passed") ++
    nonNegNumErrors (jpropOpt v "failed") (summaryCounterMsg "failed") ++
    nonNegNumErrors (jpropOpt v "flaky") (summaryCounterMsg "flaky") ++
    nonNegNumErrors (jpropOpt v "skipped") (summaryCounterMsg "skipped") ++
    nonNegNumErrors (jpropOpt v "duration_ms") (summaryCounterMsg "duration_ms")

/-- Whether `['passed','failed','flaky','skipped'].includes(testCase.status)`. -/
def caseStatusOk (v : Option JsVal) : Bool :=
  match v with
  | some (.str s) => s == "passed" || s == "failed" || s == "flaky" || s == "skipped"
  | _ => false

/-- Checks of one element of a suite's `test_cases` array; accessing a
property of a `null` element throws (`none`). -/
def caseItemErrors (i j : Nat) (tc : JsVal) : Option (List String) :=
  match tc with
  | .null => none
  | _ =>
    some
      ((if !truthyOpt (jprop tc "name") || !isStringOpt (jprop tc "name") then
          [caseNameMsg i j]
        else []) ++
        (if !caseStatusOk (jprop tc "status") then [caseStatusMsg i j] else []) ++
        nonNegNumErrors (jprop tc "duration_ms") (caseDurationMsg i j))

/-- Checks of one element of `test_suites`; a `null` element throws. -/
def suiteItemErrors (i : Nat) (suite : JsVal) : Option (List String) :=
  match suite with
  | .null => none
  | _ => do
    let caseErrs ←
      match jprop suite "test_cases" with
      | none => some ([] : List String)
      | some (.arr cases) =>
          (cases.enum.mapM (fun p => caseItemErrors i p.1 p.2)).map List.flatten
      | some _ => some [suiteCasesArrMsg i]
    some
      ((if !truthyOpt (jprop suite "suite_name") || !isStringOpt (jprop suite "suite_name") then
          [suiteNameMsg i]
        else []) ++
        nonNegNumErrors (jprop suite "total_cases") (suiteCounterMsg i "total_cases") ++
        nonNegNumErrors (jprop suite "passed") (suiteCounterMsg i "passed") ++
        nonNegNumErrors (jprop suite "failed") (suiteCounterMsg i "failed") ++
        nonNegNumErrors (jprop suite "duration_ms") (suiteCounterMsg i "duration_ms") ++
        caseErrs)

/-- The `test_suites` checks (`test_suites` is optional, but must be an
array when present). -/
def testSuitesErrors (v : Option JsVal) : Option (List String) :=
  match v with
  | none => some []
  | some (.arr suites) =>
      (suites.enum.mapM (fun p => suiteItemErrors p.1 p.2)).map List.flatten
  | some _ => some [suitesArrMsg]

/-- The validator `validateTestRun(data)`: all violations of all fields, collected in
order; `none` models an uncaught `TypeError` (null array element). -/
def validateTestRun (parseDateOk : String → Bool)
    (data : List (String × JsVal)) : Option (List String) :=
  (testSuitesErrors (jfield data "test_suites")).map (fun suitesErrs =>
    runIdErrors (jfield data "run_id") ++
    environmentErrors (jfield data "environment") ++
    timestampErrors parseDateOk (jfield data "timestamp") ++
    summaryErrors (jfield data "summary") ++
    suitesErrs)

/-! Run Store

Embedding of the `test_runs` collection with the unique index
`{ project_id: 1, run_id: 1 }` from `createIndexes` (`src/db.js`), and of
`TestRun.create` from `src/models/testRun.model.js` (the rich variant). -/

/-- The summary sub-document written by `TestRun.create`.  Each field
holds the (unvalidated) submitted value or the `|| 0` / `|| 'unknown'`
default, so the fields are raw JavaScript values. -/
structure StoredSummary where
  total_test_cases : JsVal
  passed : JsVal
  failed : JsVal
  flaky : JsVal
  skipped : JsVal
  duration_ms : JsVal

/-- A document of the `test_runs` collection. -/
structure StoredTestRun where
  project_id : String
  run_id : Option JsVal
  environment : JsVal
  timestamp : Option JsVal
  summary : StoredSummary
  test_suites : JsVal
  created_at : Nat

/-- JavaScript `x || d`: the value when truthy, otherwise the default. -/
def jsOrElse (v : Option JsVal) (d : JsVal) : JsVal :=
  match v with
  | some u => if truthy u then u else d
  | none => d

/-- The `testRun` document that `TestRun.create` builds before inserting,
given the (non-`null`) `summary` value `u`:
`environment || 'unknown'`, `summary.<counter> || 0`, `testSuites || []`. -/
def builtTestRun (now : Nat) (projectId : String)
    (runId environment timestamp : Option JsVal) (u : JsVal)
    (testSuites : Option JsVal) : StoredTestRun :=
  { project_id := projectId
    run_id := runId
    environment := jsOrElse environment (.str "unknown")
    timestamp := timestamp
    summary :=
      { total_test_cases := jsOrElse (jprop u "total_test_cases") (.num 0)
        passed := jsOrElse (jprop u "passed") (.num 0)
        failed := jsOrElse (jprop u "failed") (.num 0)
        flaky := jsOrElse (jprop u "flaky") (.num 0)
        skipped := jsOrElse (jprop u "skipped") (.num 0)
        duration_ms := jsOrElse (jprop u "duration_ms") (.num 0) }
    test_suites := jsOrElse testSuites (.arr [])
    created_at := now }

/-- Building the document throws a `TypeError` (`none`) exactly when the
six `summary.<counter>` property reads hit an absent or `null`
`summary`; otherwise the reads yield the object's bindings (or
`undefined`) and the document above is built. -/
def buildTestRun (now : Nat) (projectId : String)
    (runId environment timestamp summary testSuites : Option JsVal) :
    Option StoredTestRun :=
  match summary with
  | none => none
  | some .null => none
  | some u => some (builtTestRun now projectId runId environment timestamp u testSuites)

/-- Whether a stored record has the given idempotency key. -/
def keyMatches (p : String) (rid : Option JsVal) (r : StoredTestRun) : Bool :=
  r.project_id == p && beqJsOpt r.run_id rid

/-- Whether the store already holds a record with the given key. -/
def keyPresent (store : List StoredTestRun) (p : String) (rid : Option JsVal) : Bool :=
  store.any (keyMatches p rid)

/-- Outcome of `TestRun.create`: the document and the new collection
state, the duplicate-key error (Mongo code 11000, re-thrown as
`'Test run with this run_id already exists (duplicate)'`), or another
thrown error (the `TypeError` from `buildTestRun`). -/
inductive CreateOutcome where
  | created (tr : StoredTestRun) (store : List StoredTestRun)
  | duplicateKey
  | thrown

/-- Embedding of `TestRun.create`: build the document, then `insertOne` against the
unique `(project_id, run_id)` index — the uniqueness check and the write
are one atomic storage-level step. -/
def TestRunCreate (store : List StoredTestRun) (now : Nat) (projectId : String)
    (runId environment timestamp summary testSuites : Option JsVal) : CreateOutcome :=
  match buildTestRun now projectId runId environment timestamp summary testSuites with
  | none => .thrown
  | some tr =>
      if keyPresent store tr.project_id tr.run_id then .duplicateKey
      else .created tr (store ++ [tr])

/-! Ingestion service and orchestrator

`ingestTestRun` of `testRun.service.js` catches the model's
duplicate-run error and turns it into a first-class `duplicate: true`
result; every other error is re-thrown.  The orchestrator composes the
validation middleware with the controller `ingestTestRun` of
`testRun.controller.js`. -/

/-- Result of the `ingestTestRun` service call. -/
inductive ServiceResult where
  | createdRun (runId environment summary : Option JsVal)
  | duplicateRun (runId environment : Option JsVal)
  | thrown

/-- Embedding of `testRunService.ingestTestRun`. -/
def ingestTestRunService (store : List StoredTestRun) (now : Nat) (projectId : String)
    (runId environment timestamp summary testSuites : Option JsVal) :
    ServiceResult × List StoredTestRun :=
  match TestRunCreate store now projectId runId environment timestamp summary testSuites with
  | .created _ store' => (.createdRun runId environment summary, store')
  | .duplicateKey => (.duplicateRun runId environment, store)
  | .thrown => (.thrown, store)

/-- The HTTP response of the ingest pipeline, as produced by the
validation middleware and `testRunController.ingestTestRun`. -/
inductive IngestResponse where
  | badRequest (details : List String)
  | createdResp (runId environment summary : Option JsVal) (testSuites : JsVal)
  | okDuplicate (runId : Option JsVal)
  | serverError

/-- HTTP status of an ingest response (400 / 201 / 200 / 500). -/
def responseStatus : IngestResponse → Nat
  | .badRequest _ => 400
  | .createdResp _ _ _ _ => 201
  | .okDuplicate _ => 200
  | .serverError => 500

/-- Whether the response body carries `duplicate: true`. -/
def responseDuplicateFlag : IngestResponse → Bool
  | .okDuplicate _ => true
  | _ => false

/-- The `POST /ingest` pipeline after authentication: validate the body,
call the service with the project id from the authenticated token, and
classify the outcome. -/
def ingest (parseDateOk : String → Bool) (store : List StoredTestRun) (now : Nat)
    (projectId : String) (body : List (String × JsVal)) :
    IngestResponse × List StoredTestRun :=
  match validateTestRun parseDateOk body with
  | none => (.serverError, store)
  | some (e :: es) => (.badRequest (e :: es), store)
  | some [] =>
      match ingestTestRunService store now projectId (jfield body "run_id")
          (jfield body "environment") (jfield body "timestamp")
          (jfield body "summary") (jfield body "test_suites") with
      | (.createdRun rid env summ, store') =>
          (.createdResp rid env summ (jsOrElse (jfield body "test_suites") (.arr [])), store')
      | (.duplicateRun rid _, store') => (.okDuplicate rid, store')
      | (.thrown, store') => (.serverError, store')

/-- Reflexive-transitive closure of ingest steps: the stores reachable
from `s` by any sequence of `POST /ingest` requests. -/
inductive Reachable : List StoredTestRun → List StoredTestRun → Prop where
  | refl (s : List StoredTestRun) : Reachable s s
  | step {s s' : List StoredTestRun} (parseDateOk : String → Bool) (now : Nat)
      (projectId : String) (body : List (String × JsVal)) :
      Reachable s s' →
      Reachable s (ingest parseDateOk s' now projectId body).2

/-- Sequential execution of a batch of ingest requests under one project,
returning all responses and the final store.  Under the storage layer's
atomic uniqueness enforcement, any interleaving of concurrent requests is
equivalent to some such serial order. -/
def ingestSeq (parseDateOk : String → Bool) (projectId : String) :
    List StoredTestRun → List (Nat × List (String × JsVal)) →
    List IngestResponse × List StoredTestRun
  | store, [] => ([], store)
  | store, (now, body) :: rest =>
      let r := ingest parseDateOk store now projectId body
      let rs := ingestSeq parseDateOk projectId r.2 rest
      (r.1 :: rs.1, rs.2)

/-! Credential Store

Embedding of `ApiToken.create` / `ApiToken.authenticate`
(`src/models/ApiToken.js`) and of the `authenticateToken` middleware.
The slow salted hash (`bcrypt.hash(token, SALT_ROUNDS)`) and its
comparison (`bcrypt.compare`) are external primitives, so the
definitions are parameterised by `bhash` (token and per-call salt to
hash) and `bverify` (token and stored hash to match); theorems assume
only the contract bcrypt provides.  Randomness (the raw token from
`crypto.randomBytes` and the salt) is passed in by the caller. -/

/-- A document of the `api_tokens` collection: exactly the credential id,
the owning project, the token hash and the creation time. -/
structure ApiTokenRec where
  id : String
  project_id : String
  token_hash : String
  created_at : Nat

/-- What `ApiToken.create` returns to the issuing caller — the only place
the raw token ever appears after generation. -/
structure IssuedToken where
  id : String
  project_id : String
  token : String
  token_hash : String

/-- Embedding of `ApiToken.create(projectId)`: hash the fresh raw token, insert
`{_id, project_id, token_hash, created_at}` (the collection has a unique
index on `token_hash`, so a hash collision makes the insert throw,
modelled by `none`), and return the raw token exactly once. -/
def ApiTokenCreate (bhash : String → Nat → String) (store : List ApiTokenRec)
    (projectId tokenId rawToken : String) (salt : Nat) (now : Nat) :
    Option (IssuedToken × List ApiTokenRec) :=
  let tokenHash := bhash rawToken salt
  if store.any (fun r => r.token_hash == tokenHash) then none
  else
    some
      ({ id := tokenId, project_id := projectId, token := rawToken,
         token_hash := tokenHash },
       store ++ [{ id := tokenId, project_id := projectId,
                   token_hash := tokenHash, created_at := now }])

/-- Embedding of `ApiToken.authenticate(token)`: scan every stored credential in order
and return the `(tokenId, projectId)` of the first whose hash the
presented token matches, or `none`. -/
def ApiTokenAuthenticate (bverify : String → String → Bool)
    (store : List ApiTokenRec) (token : String) : Option (String × String) :=
  (store.find? (fun r => bverify token r.token_hash)).map (fun r => (r.id, r.project_id))

/-- Outcome of the authentication middleware. -/
inductive AuthOutcome where
  | authed (tokenId projectId : String)
  | unauthorized (message : String)

/-- The `authenticateToken` middleware: require a `Bearer ` authorization
header, extract the token, and resolve it against the credential store;
any failure is a terminal 401. -/
def authenticateToken (bverify : String → String → Bool)
    (store : List ApiTokenRec) (authHeader : Option String) : AuthOutcome :=
  match authHeader with
  | none =>
      .unauthorized "Missing or invalid Authorization header. Expected: Bearer <token>"
  | some h =>
      if !charsStartWith h.data "Bearer ".data then
        .unauthorized "Missing or invalid Authorization header. Expected: Bearer <token>"
      else
        let token : String := ⟨h.data.drop 7⟩
        if token == "" then .unauthorized "Token is empty"
        else
          match ApiTokenAuthenticate bverify store token with
          | some (tid, pid) => .authed tid pid
          | none => .unauthorized "Invalid token"

/-! Derived predicates and concrete sample inputs -/

/-- Whether a response is the first-time `201 Created` acceptance. -/
def responseIsCreated : IngestResponse → Bool
  | .createdResp _ _ _ _ => true
  | _ => false

/-- Whether a response is the idempotent `200` duplicate outcome. -/
def responseIsDuplicate : IngestResponse → Bool
  | .okDuplicate _ => true
  | _ => false

/-- The run-store invariant: at most one record per
`(project_id, run_id)` pair. -/
def atMostOnePerKey (store : List StoredTestRun) : Prop :=
  ∀ p rid, (store.filter (keyMatches p rid)).length ≤ 1

/-- The summary of the spec's example scenario
(`total:3, passed:2, failed:1, flaky:0, skipped:0, duration_ms:900`). -/
def sampleSummary : JsVal :=
  .obj [("total_test_cases", .num 3), ("passed", .num 2), ("failed", .num 1),
        ("flaky", .num 0), ("skipped", .num 0), ("duration_ms", .num 900)]

/-- A valid ingest body for run `tr_build_42`. -/
def sampleBody : List (String × JsVal) :=
  [("run_id", .str "tr_build_42"), ("environment", .str "staging"),
   ("timestamp", .str "2026-01-12T10:00:00Z"), ("summary", sampleSummary)]

/-- A body that reuses run id `tr_build_42` but omits every other
required field. -/
def strippedBody : List (String × JsVal) :=
  [("run_id", .str "tr_build_42")]

/-- A body missing `environment` and carrying `summary.passed` as a
string. -/
def twoViolationsBody : List (String × JsVal) :=
  [("run_id", .str "tr_build_42"), ("timestamp", .str "2026-01-12T10:00:00Z"),
   ("summary", .obj [("total_test_cases", .num 3), ("passed", .str "2"),
                     ("failed", .num 1), ("flaky", .num 0), ("skipped", .num 0),
                     ("duration_ms", .num 900)])]

/-- A body whose `run_id` lacks the `tr_` namespace. -/
def badIdBody : List (String × JsVal) :=
  [("run_id", .str "bad-id")]

/-- A body whose `run_id` is whitespace only (truthy string, blank after
trimming, without the `tr_` namespace). -/
def blankIdBody : List (String × JsVal) :=
  [("run_id", .str " ")]

/-- A date-parsing oracle that accepts every string (the concrete choice
is irrelevant to the properties proved here). -/
def anyDateOk : String → Bool := fun _ => true

/-- A concrete stand-in for `bcrypt.hash` used by witnesses. -/
def sampleHash : String → Nat → String := fun t _ => "h:" ++ t

/-- The matching concrete stand-in for `bcrypt.compare`. -/
def sampleVerify : String → String → Bool := fun t h => h == "h:" ++ t

/-! Basic properties of JavaScript value equality -/

mutual

theorem beqJsVal_refl : ∀ a, beqJsVal a a = true
  | .str _ => by simp [beqJsVal]
  | .num _ => by simp [beqJsVal]
  | .boolean b => by cases b <;> simp [beqJsVal]
  | .null => by simp [beqJsVal]
  | .arr l => by simp [beqJsVal]; exact beqJsList_refl l
  | .obj l => by simp [beqJsVal]; exact beqJsPairs_refl l

theorem beqJsList_refl : ∀ l, beqJsList l l = true
  | [] => by simp [beqJsList]
  | x :: xs => by
      simp [beqJsList]
      exact ⟨beqJsVal_refl x, beqJsList_refl xs⟩

theorem beqJsPairs_refl : ∀ l, beqJsPairs l l = true
  | [] => by simp [beqJsPairs]
  | (k, v) :: xs => by
      simp [beqJsPairs]
      exact ⟨beqJsVal_refl v, beqJsPairs_refl xs⟩

end

mutual

theorem beqJsVal_sound : ∀ a b, beqJsVal a b = true → a = b
  | .str _, b, h => by
      cases b <;> simp [beqJsVal] at h
      simp [h]
  | .num _, b, h => by
      cases b <;> simp [beqJsVal] at h
      simp [h]
  | .boolean _, b, h => by
      cases b <;> simp [beqJsVal] at h
      simp [h]
  | .null, b, h => by
      cases b <;> simp [beqJsVal] at h
      rfl
  | .arr a, b, h => by
      cases b <;> simp [beqJsVal] at h
      case arr l => exact congrArg JsVal.arr (beqJsList_sound a l h)
  | .obj a, b, h => by
      cases b <;> simp [beqJsVal] at h
      case obj l => exact congrArg JsVal.obj (beqJsPairs_sound a l h)

theorem beqJsList_sound : ∀ a b, beqJsList a b = true → a = b
  | [], [], _ => rfl
  | [], _ :: _, h => by simp [beqJsList] at h
  | _ :: _, [], h => by simp [beqJsList] at h
  | x :: xs, y :: ys, h => by
      simp only [beqJsList, Bool.and_eq_true] at h
      rw [beqJsVal_sound x y h.1, beqJsList_sound xs ys h.2]

theorem beqJsPairs_sound : ∀ a b, beqJsPairs a b = true → a = b
  | [], [], _ => rfl
  | [], _ :: _, h => by simp [beqJsPairs] at h
  | _ :: _, [], h => by simp [beqJsPairs] at h
  | (k₁, v₁) :: xs, (k₂, v₂) :: ys, h => by
      simp only [beqJsPairs, Bool.and_eq_true, beq_iff_eq] at h
      rw [h.1.1, beqJsVal_sound v₁ v₂ h.1.2, beqJsPairs_sound xs ys h.2]

end

theorem beqJsVal_iff (a b : JsVal) : beqJsVal a b = true ↔ a = b :=
  ⟨beqJsVal_sound a b, fun h => h ▸ beqJsVal_refl a⟩

theorem beqJsOpt_iff (a b : Option JsVal) : beqJsOpt a b = true ↔ a = b := by
  cases a <;> cases b <;> simp [beqJsOpt, beqJsVal_iff]

theorem keyMatches_iff (p : String) (rid : Option JsVal) (r : StoredTestRun) :
    keyMatches p rid r = true ↔ r.project_id = p ∧ r.run_id = rid := by
  simp [keyMatches, beqJsOpt_iff]

/-! Validator lemmas -/

theorem validateTestRun_parts {pd : String → Bool} {data : List (String × JsVal)}
    {es : List String} (h : validateTestRun pd data = some es) :
    ∃ suitesErrs, testSuitesErrors (jfield data "test_suites") = some suitesErrs ∧
      es = runIdErrors (jfield data "run_id") ++
        environmentErrors (jfield data "environment") ++
        timestampErrors pd (jfield data "timestamp") ++
        summaryErrors (jfield data "summary") ++ suitesErrs := by
  unfold validateTestRun at h
  cases hts : testSuitesErrors (jfield data "test_suites") with
  | none => rw [hts] at h; cases h
  | some se =>
      rw [hts] at h
      rw [Option.map_some'] at h
      exact ⟨se, rfl, (Option.some.inj h).symm⟩

theorem validateTestRun_ok_parts {pd : String → Bool} {data : List (String × JsVal)}
    (h : validateTestRun pd data = some []) :
    runIdErrors (jfield data "run_id") = [] ∧
    environmentErrors (jfield data "environment") = [] ∧
    timestampErrors pd (jfield data "timestamp") = [] ∧
    summaryErrors (jfield data "summary") = [] := by
  obtain ⟨se, _, he⟩ := validateTestRun_parts h
  have h0 := he.symm
  simp only [List.append_eq_nil] at h0
  exact ⟨h0.1.1.1.1, h0.1.1.1.2, h0.1.1.2, h0.1.2⟩

theorem environmentErrors_cases (v : Option JsVal) :
    environmentErrors v = [] ∨ environmentErrors v = [envReqMsg] := by
  unfold environmentErrors
  by_cases hc : (!truthyOpt v || !isStringOpt v) = true
  · right; rw [if_pos hc]
  · left; rw [if_neg hc]


theorem isStringOpt_shape : ∀ {v : Option JsVal}, isStringOpt v = true → ∃ s, v = some (.str s)
  | some (.str s), _ => ⟨s, rfl⟩

theorem nonNegNumErrors_cases (v : Option JsVal) (msg : String) :
    nonNegNumErrors v msg = [] ∨ nonNegNumErrors v msg = [msg] := by
  unfold nonNegNumErrors
  split
  · split
    · right; rfl
    · left; rfl
  · right; rfl

theorem summaryErrors_mem_passed {v : Option JsVal}
    (ht : truthyOpt v = true) (ho : isObjTypeOpt v = true)
    (hbad : nonNegNumErrors (jpropOpt v "passed") (summaryCounterMsg "passed") ≠ []) :
    summaryCounterMsg "passed" ∈ summaryErrors v := by
  have hb : nonNegNumErrors (jpropOpt v "passed") (summaryCounterMsg "passed") =
      [summaryCounterMsg "passed"] :=
    (nonNegNumErrors_cases _ _).resolve_left hbad
  unfold summaryErrors
  have hcond : (!truthyOpt v || !isObjTypeOpt v) = false := by rw [ht, ho]; rfl
  simp [hcond, hb]

theorem summaryErrors_nil_not_null {v : Option JsVal} (h : summaryErrors v = []) :
    ∃ u, v = some u ∧ u ≠ JsVal.null := by
  unfold summaryErrors at h
  by_cases hc : (!truthyOpt v || !isObjTypeOpt v) = true
  · rw [if_pos hc] at h; cases h
  · have hc' : truthyOpt v = true ∧ isObjTypeOpt v = true := by
      simpa [not_or] using hc
    match v, hc'.1 with
    | some u, ht =>
        refine ⟨u, rfl, fun hn => ?_⟩
        subst hn
        simp [truthyOpt, truthy] at ht

theorem runIdErrors_nil {v : Option JsVal} (h : runIdErrors v = []) :
    ∃ s, v = some (.str s) ∧ (jsTrim s).length ≠ 0 ∧
      charsStartWith s.data "tr_".data = true ∧ 4 ≤ s.data.length := by
  unfold runIdErrors at h
  by_cases hc : (!truthyOpt v || !isStringOpt v) = true
  · rw [if_pos hc] at h; cases h
  · rw [if_neg hc] at h
    have hc' : truthyOpt v = true ∧ isStringOpt v = true := by
      simpa [not_or] using hc
    obtain ⟨s, rfl⟩ := isStringOpt_shape hc'.2
    have h2 : (if ((jsTrim s).length == 0) = true then [runIdEmptyMsg]
        else if (!charsStartWith s.data "tr_".data) = true then [runIdNamespaceMsg]
        else if s.data.length < 4 then [runIdLenMsg] else []) = [] := h
    by_cases h1 : ((jsTrim s).length == 0) = true
    · rw [if_pos h1] at h2; cases h2
    · rw [if_neg h1] at h2
      by_cases hpre : (!charsStartWith s.data "tr_".data) = true
      · rw [if_pos hpre] at h2; cases h2
      · rw [if_neg hpre] at h2
        by_cases h3 : s.data.length < 4
        · rw [if_pos h3] at h2; cases h2
        · exact ⟨s, rfl, by simpa using h1, by simpa using hpre, by omega⟩

/-! Run-store pipeline lemmas -/

theorem buildTestRun_some {u : JsVal} (hu : u ≠ JsVal.null)
    (now : Nat) (p : String) (runId env ts suites : Option JsVal) :
    buildTestRun now p runId env ts (some u) suites =
      some (builtTestRun now p runId env ts u suites) := by
  cases u <;> first | rfl | exact absurd rfl hu

theorem ingest_valid_created (now : Nat) {pd : String → Bool}
    {body : List (String × JsVal)} {store : List StoredTestRun}
    {p : String} {u : JsVal}
    (hval : validateTestRun pd body = some [])
    (hsum : jfield body "summary" = some u)
    (hkey : keyPresent store p (jfield body "run_id") = false) :
    ingest pd store now p body =
      (.createdResp (jfield body "run_id") (jfield body "environment")
        (jfield body "summary") (jsOrElse (jfield body "test_suites") (.arr [])),
       store ++ [builtTestRun now p (jfield body "run_id") (jfield body "environment")
         (jfield body "timestamp") u (jfield body "test_suites")]) := by
  have hnn : u ≠ JsVal.null := by
    obtain ⟨u', hu', hnn⟩ :=
      summaryErrors_nil_not_null (validateTestRun_ok_parts hval).2.2.2
    rw [hsum] at hu'
    cases hu'
    exact hnn
  simp only [ingest, hval, ingestTestRunService, TestRunCreate, hsum,
    buildTestRun_some hnn, builtTestRun, hkey, Bool.false_eq_true, if_false]

theorem ingest_valid_duplicate (now : Nat) {pd : String → Bool}
    {body : List (String × JsVal)} {store : List StoredTestRun} {p : String}
    (hval : validateTestRun pd body = some [])
    (hkey : keyPresent store p (jfield body "run_id") = true) :
    ingest pd store now p body = (.okDuplicate (jfield body "run_id"), store) := by
  obtain ⟨u, hsum, hnn⟩ :=
    summaryErrors_nil_not_null (validateTestRun_ok_parts hval).2.2.2
  simp only [ingest, hval, ingestTestRunService, TestRunCreate, hsum,
    buildTestRun_some hnn, builtTestRun, hkey, if_true]

theorem ingest_store_shape (pd : String → Bool) (store : List StoredTestRun)
    (now : Nat) (p : String) (body : List (String × JsVal)) :
    (ingest pd store now p body).2 = store ∨
    ∃ tr, (ingest pd store now p body).2 = store ++ [tr] ∧
      keyPresent store tr.project_id tr.run_id = false := by
  unfold ingest
  cases hv : validateTestRun pd body with
  | none => exact Or.inl rfl
  | some es =>
    cases es with
    | cons e es' => exact Or.inl rfl
    | nil =>
      unfold ingestTestRunService TestRunCreate
      cases hb : buildTestRun now p (jfield body "run_id") (jfield body "environment")
          (jfield body "timestamp") (jfield body "summary") (jfield body "test_suites") with
      | none => exact Or.inl rfl
      | some tr =>
        by_cases hk : keyPresent store tr.project_id tr.run_id = true
        · exact Or.inl (by simp [hk])
        · exact Or.inr ⟨tr, by simp [hk], by simpa using hk⟩

theorem reachable_extends {s s' : List StoredTestRun} (h : Reachable s s') :
    ∃ t, s' = s ++ t := by
  induction h with
  | refl => exact ⟨[], by simp⟩
  | step pd now p body h ih =>
      obtain ⟨t, ht⟩ := ih
      rcases ingest_store_shape pd _ now p body with h2 | ⟨tr, h2, _⟩
      · exact ⟨t, by rw [h2, ht]⟩
      · exact ⟨t ++ [tr], by rw [h2, ht, List.append_assoc]⟩

theorem keyPresent_append_left {s : List StoredTestRun} (t : List StoredTestRun)
    {p : String} {rid : Option JsVal} (h : keyPresent s p rid = true) :
    keyPresent (s ++ t) p rid = true := by
  simp only [keyPresent, List.any_eq_true] at h ⊢
  obtain ⟨r, hr, hm⟩ := h
  exact ⟨r, List.mem_append_left t hr, hm⟩

/-! Key-presence helpers -/

theorem keyPresent_append (s t : List StoredTestRun) (p : String) (rid : Option JsVal) :
    keyPresent (s ++ t) p rid = (keyPresent s p rid || keyPresent t p rid) := by
  simp [keyPresent, List.any_append]

theorem keyPresent_snoc_self (s : List StoredTestRun) {tr : StoredTestRun}
    {p : String} {rid : Option JsVal} (hp : tr.project_id = p) (hr : tr.run_id = rid) :
    keyPresent (s ++ [tr]) p rid = true := by
  rw [keyPresent_append]
  have : keyMatches p rid tr = true := (keyMatches_iff p rid tr).2 ⟨hp, hr⟩
  simp [keyPresent, this]

/-- C1 (amended): for a validator-accepted payload `P` whose
`(project, run_id)` key is not yet stored, ingest returns the Created
response carrying `P`'s `run_id`, and afterwards — in every store
reachable by further ingests — ingesting any validator-accepted payload
`P'` with the same `run_id` under the same project yields the Duplicate
success, never a second Created and never an error. -/
theorem ingest_idempotent_key (pd : String → Bool) (store : List StoredTestRun)
    (now : Nat) (p : String) (body : List (String × JsVal))
    (hval : validateTestRun pd body = some [])
    (hkey : keyPresent store p (jfield body "run_id") = false) :
    ∃ tr, tr.project_id = p ∧ tr.run_id = jfield body "run_id" ∧
      ingest pd store now p body =
        (.createdResp (jfield body "run_id") (jfield body "environment")
          (jfield body "summary") (jsOrElse (jfield body "test_suites") (.arr [])),
         store ++ [tr]) ∧
      ∀ store', Reachable (store ++ [tr]) store' →
        ∀ pd' now' body', validateTestRun pd' body' = some [] →
          jfield body' "run_id" = jfield body "run_id" →
          ingest pd' store' now' p body' =
            (.okDuplicate (jfield body "run_id"), store') := by
  obtain ⟨u, hsum, hnn⟩ :=
    summaryErrors_nil_not_null (validateTestRun_ok_parts hval).2.2.2
  refine ⟨builtTestRun now p (jfield body "run_id") (jfield body "environment")
      (jfield body "timestamp") u (jfield body "test_suites"), rfl, rfl,
      ingest_valid_created now hval hsum hkey, ?_⟩
  intro store' hr pd' now' body' hval' hrid
  obtain ⟨t, ht⟩ := reachable_extends hr
  have hk2 : keyPresent store' p (jfield body' "run_id") = true := by
    rw [ht, hrid]
    exact keyPresent_append_left t (keyPresent_snoc_self store rfl rfl)
  have hres := ingest_valid_duplicate now' hval' hk2
  rw [hrid] at hres
  exact hres

/-- C1, counterexample: after a first valid ingest of run
`tr_build_42`, a later request with the same `run_id` whose other fields
are missing is answered with a 400 BadRequest — an error response, not
the Duplicate outcome — so a later ingest with equal `run_id` but
arbitrary other fields does not always yield Duplicate. -/
theorem ingest_idempotent_key_cex :
    (ingest anyDateOk [] 0 "p1" sampleBody).1 =
      .createdResp (some (.str "tr_build_42")) (some (.str "staging"))
        (some sampleSummary) (.arr []) ∧
    (ingest anyDateOk (ingest anyDateOk [] 0 "p1" sampleBody).2 1 "p1" strippedBody).1 =
      .badRequest [envReqMsg, tsReqMsg, summaryObjMsg] ∧
    responseIsDuplicate
      (ingest anyDateOk (ingest anyDateOk [] 0 "p1" sampleBody).2 1 "p1" strippedBody).1 =
      false :=
  ⟨rfl, rfl, rfl⟩

/-- C1, witness: the amended theorem at the spec's example scenario:
first ingest of `tr_build_42` is Created, an identical retry is
Duplicate. -/
theorem ingest_idempotent_key_witness :
    (ingest anyDateOk [] 0 "p1" sampleBody).1 =
      .createdResp (some (.str "tr_build_42")) (some (.str "staging"))
        (some sampleSummary) (.arr []) ∧
    (ingest anyDateOk (ingest anyDateOk [] 0 "p1" sampleBody).2 7 "p1" sampleBody).1 =
      .okDuplicate (some (.str "tr_build_42")) := by
  obtain ⟨tr, hp, hrid, hing, hdup⟩ :=
    ingest_idempotent_key anyDateOk [] 0 "p1" sampleBody (by decide) rfl
  have hst : (ingest anyDateOk [] 0 "p1" sampleBody).2 = [] ++ [tr] := by rw [hing]
  have hreach : Reachable ([] ++ [tr]) ((ingest anyDateOk [] 0 "p1" sampleBody).2) :=
    hst ▸ Reachable.refl _
  have h2 := hdup _ hreach anyDateOk 7 sampleBody (by decide) rfl
  exact ⟨by rw [hing]; exact rfl, by rw [h2]; exact rfl⟩

/-- C4: the same `run_id` under two distinct projects (each taken
from its authenticated token, not from the payload) yields two
independent Created outcomes: the uniqueness key is the
`(project_id, run_id)` pair, so equal run ids under different projects
never collide. -/
theorem cross_tenant_independent_creates
    (pd : String → Bool) (store : List StoredTestRun) (p₁ p₂ : String)
    (body₁ body₂ : List (String × JsVal)) (now₁ now₂ : Nat) (rid : Option JsVal)
    (hp : p₁ ≠ p₂)
    (hv₁ : validateTestRun pd body₁ = some [])
    (hv₂ : validateTestRun pd body₂ = some [])
    (hr₁ : jfield body₁ "run_id" = rid) (hr₂ : jfield body₂ "run_id" = rid)
    (hk₁ : keyPresent store p₁ rid = false)
    (hk₂ : keyPresent store p₂ rid = false) :
    ∃ tr₁ tr₂,
      ingest pd store now₁ p₁ body₁ =
        (.createdResp rid (jfield body₁ "environment") (jfield body₁ "summary")
          (jsOrElse (jfield body₁ "test_suites") (.arr [])), store ++ [tr₁]) ∧
      ingest pd (store ++ [tr₁]) now₂ p₂ body₂ =
        (.createdResp rid (jfield body₂ "environment") (jfield body₂ "summary")
          (jsOrElse (jfield body₂ "test_suites") (.arr [])),
         store ++ [tr₁] ++ [tr₂]) := by
  obtain ⟨u₁, hs₁, _⟩ :=
    summaryErrors_nil_not_null (validateTestRun_ok_parts hv₁).2.2.2
  obtain ⟨u₂, hs₂, _⟩ :=
    summaryErrors_nil_not_null (validateTestRun_ok_parts hv₂).2.2.2
  subst hr₁
  have h₁ := ingest_valid_created now₁ hv₁ hs₁ hk₁
  have hk₂' : keyPresent
      (store ++ [builtTestRun now₁ p₁ (jfield body₁ "run_id") (jfield body₁ "environment")
        (jfield body₁ "timestamp") u₁ (jfield body₁ "test_suites")])
      p₂ (jfield body₂ "run_id") = false := by
    rw [hr₂, keyPresent_append, hk₂]
    have hm : keyMatches p₂ (jfield body₁ "run_id")
        (builtTestRun now₁ p₁ (jfield body₁ "run_id") (jfield body₁ "environment")
          (jfield body₁ "timestamp") u₁ (jfield body₁ "test_suites")) = false := by
      apply Bool.eq_false_iff.mpr
      intro hmm
      exact hp ((keyMatches_iff _ _ _).1 hmm).1
    simp [keyPresent, hm]
  have h₂ := ingest_valid_created now₂ hv₂ hs₂ hk₂'
  rw [hr₂] at h₂
  exact ⟨_, _, h₁, h₂⟩

/-- C4, witness: run `tr_build_42` ingested under project `p1` and
then under project `p2` produces two Created responses. -/
theorem cross_tenant_independent_creates_witness :
    (ingest anyDateOk [] 0 "p1" sampleBody).1 =
      .createdResp (some (.str "tr_build_42")) (some (.str "staging"))
        (some sampleSummary) (.arr []) ∧
    (ingest anyDateOk (ingest anyDateOk [] 0 "p1" sampleBody).2 1 "p2" sampleBody).1 =
      .createdResp (some (.str "tr_build_42")) (some (.str "staging"))
        (some sampleSummary) (.arr []) := by
  obtain ⟨tr₁, tr₂, h₁, h₂⟩ :=
    cross_tenant_independent_creates anyDateOk [] "p1" "p2" sampleBody
      sampleBody 0 1 (some (.str "tr_build_42"))
      (by decide) (by decide) (by decide) rfl rfl rfl rfl
  have hst : (ingest anyDateOk [] 0 "p1" sampleBody).2 = [] ++ [tr₁] := by rw [h₁]
  refine ⟨by rw [h₁]; exact rfl, ?_⟩
  rw [hst, h₂]
  exact rfl

/-- C5: a duplicate-key report from the run store is a first-class
success: the service converts it into a `duplicate` result and the
pipeline answers it with HTTP 200, `duplicate: true` and the submitted
`run_id` — never an error status and never an internal fault. -/
theorem duplicate_reported_as_success
    (store : List StoredTestRun) (now : Nat) (p : String)
    (rid env ts summ su : Option JsVal) (pd : String → Bool)
    (body : List (String × JsVal))
    (hval : validateTestRun pd body = some [])
    (hkey : keyPresent store p (jfield body "run_id") = true) :
    (TestRunCreate store now p rid env ts summ su = .duplicateKey →
      ingestTestRunService store now p rid env ts summ su =
        (.duplicateRun rid env, store)) ∧
    ingest pd store now p body = (.okDuplicate (jfield body "run_id"), store) ∧
    responseStatus (ingest pd store now p body).1 = 200 ∧
    responseDuplicateFlag (ingest pd store now p body).1 = true := by
  have hd := ingest_valid_duplicate now hval hkey
  refine ⟨fun h => by simp [ingestTestRunService, h], hd, ?_, ?_⟩
  · rw [hd]; rfl
  · rw [hd]; rfl

/-- C5, witness: retrying `tr_build_42` after it is stored produces
the 200 response with `duplicate: true` and the run id. -/
theorem duplicate_reported_as_success_witness :
    ingest anyDateOk (ingest anyDateOk [] 0 "p1" sampleBody).2 3 "p1" sampleBody =
      (.okDuplicate (some (.str "tr_build_42")),
       (ingest anyDateOk [] 0 "p1" sampleBody).2) ∧
    responseStatus
      (ingest anyDateOk (ingest anyDateOk [] 0 "p1" sampleBody).2 3 "p1" sampleBody).1 = 200 ∧
    responseDuplicateFlag
      (ingest anyDateOk (ingest anyDateOk [] 0 "p1" sampleBody).2 3 "p1" sampleBody).1 = true := by
  obtain ⟨_, h₂, h₃, h₄⟩ :=
    duplicate_reported_as_success ((ingest anyDateOk [] 0 "p1" sampleBody).2) 3 "p1"
      none none none none none anyDateOk sampleBody
      (by decide) (by exact rfl)
  exact ⟨by rw [h₂]; exact rfl, h₃, h₄⟩

/-! Store invariant (C2) -/

theorem atMostOnePerKey_snoc {s : List StoredTestRun} {tr : StoredTestRun}
    (hu : atMostOnePerKey s)
    (hk : keyPresent s tr.project_id tr.run_id = false) :
    atMostOnePerKey (s ++ [tr]) := by
  intro p rid
  rw [List.filter_append]
  by_cases hm : keyMatches p rid tr = true
  · have hnil : s.filter (keyMatches p rid) = [] := by
      rw [List.filter_eq_nil_iff]
      intro r hr hrm
      obtain ⟨hp₁, hr₁⟩ := (keyMatches_iff p rid tr).1 hm
      obtain ⟨hp₂, hr₂⟩ := (keyMatches_iff p rid r).1 hrm
      have hsame : keyMatches tr.project_id tr.run_id r = true :=
        (keyMatches_iff _ _ _).2 ⟨hp₂.trans hp₁.symm, hr₂.trans hr₁.symm⟩
      have : keyPresent s tr.project_id tr.run_id = true := by
        simp only [keyPresent, List.any_eq_true]
        exact ⟨r, hr, hsame⟩
      rw [this] at hk
      cases hk
    rw [hnil]
    simp [List.filter_cons, hm]
  · have hm' : keyMatches p rid tr = false := Bool.eq_false_iff.mpr hm
    simp only [List.filter_cons, hm', List.filter_nil, Bool.false_eq_true,
      if_false, List.append_nil]
    exact hu p rid

/-- C2: starting from any store satisfying the uniqueness invariant,
every store reachable by ingest operations still holds at most one record
per `(project_id, run_id)` pair, and the original records are still there
unchanged, in order — ingest only ever appends, it never updates or
deletes a stored run. -/
theorem run_store_unique_and_immutable {s s' : List StoredTestRun}
    (h : Reachable s s') (hu : atMostOnePerKey s) :
    atMostOnePerKey s' ∧ ∃ t, s' = s ++ t := by
  induction h with
  | refl => exact ⟨hu, [], by simp⟩
  | step pd now p body h ih =>
      obtain ⟨hu', t, ht⟩ := ih
      rcases ingest_store_shape pd _ now p body with h₂ | ⟨tr, h₂, hk⟩
      · rw [h₂]; exact ⟨hu', t, ht⟩
      · rw [h₂]
        exact ⟨atMostOnePerKey_snoc hu' hk, t ++ [tr],
          by rw [ht, List.append_assoc]⟩

/-- C2, witness: the invariant instantiated at the empty store. -/
theorem run_store_unique_and_immutable_witness :
    atMostOnePerKey ([] : List StoredTestRun) ∧
    ∃ t, ([] : List StoredTestRun) = [] ++ t :=
  run_store_unique_and_immutable (Reachable.refl []) (fun p rid => by simp)

/-! Concurrent identical submissions (C3) -/

theorem countP_map_const {α β : Type} (f : β → Bool) (c : β) (l : List α) :
    (l.map (fun _ => c)).countP f = if f c then l.length else 0 := by
  induction l with
  | nil => simp
  | cons a l ih =>
      simp only [List.map_cons, List.countP_cons, ih]
      by_cases hf : f c = true
      · simp [hf]
      · simp [Bool.eq_false_iff.mpr hf]

theorem countP_replicate {α : Type} (f : α → Bool) (c : α) (n : Nat) :
    (List.replicate n c).countP f = if f c then n else 0 := by
  induction n with
  | zero => simp
  | succ n ih =>
      simp only [List.replicate_succ, List.countP_cons, ih]
      by_cases hf : f c = true <;> simp [hf]

theorem ingestSeq_all_duplicate (pd : String → Bool) (p : String) (rid : Option JsVal) :
    ∀ (store : List StoredTestRun) (reqs : List (Nat × List (String × JsVal))),
      (∀ r ∈ reqs, validateTestRun pd r.2 = some [] ∧ jfield r.2 "run_id" = rid) →
      keyPresent store p rid = true →
      ingestSeq pd p store reqs = (reqs.map (fun _ => .okDuplicate rid), store)
  | store, [], _, _ => by simp [ingestSeq]
  | store, (now, body) :: rest, hv, hk => by
      have h₁ : validateTestRun pd body = some [] :=
        (hv (now, body) (List.mem_cons_self _ _)).1
      have h₂ : jfield body "run_id" = rid :=
        (hv (now, body) (List.mem_cons_self _ _)).2
      have hd := ingest_valid_duplicate now h₁ (by rw [h₂]; exact hk)
      rw [h₂] at hd
      have ih := ingestSeq_all_duplicate pd p rid store rest
        (fun r hr => hv r (by simp [hr])) hk
      simp only [ingestSeq, hd, ih, List.map_cons]

/-- C3: any serial order of `N ≥ 2` validator-accepted ingest
requests carrying the same `(project, run_id)` key (the storage layer's
atomic unique index serialises racing inserts) produces exactly one
Created response and `N − 1` Duplicate responses, and leaves exactly one
stored record for that key — never two Created, never a lost write. -/
theorem concurrent_same_key_one_created
    (pd : String → Bool) (p : String) (rid : Option JsVal)
    (store : List StoredTestRun) (reqs : List (Nat × List (String × JsVal)))
    (hv : ∀ r ∈ reqs, validateTestRun pd r.2 = some [] ∧ jfield r.2 "run_id" = rid)
    (hk : keyPresent store p rid = false)
    (hfilter : store.filter (keyMatches p rid) = [])
    (hn : 2 ≤ reqs.length) :
    ((ingestSeq pd p store reqs).1.countP responseIsCreated) = 1 ∧
    ((ingestSeq pd p store reqs).1.countP responseIsDuplicate) = reqs.length - 1 ∧
    (((ingestSeq pd p store reqs).2.filter (keyMatches p rid)).length = 1) := by
  match reqs, hv, hn with
  | (now, body) :: rest, hv, hn =>
      have h₁ : validateTestRun pd body = some [] :=
        (hv (now, body) (List.mem_cons_self _ _)).1
      have h₂ : jfield body "run_id" = rid :=
        (hv (now, body) (List.mem_cons_self _ _)).2
      obtain ⟨u, hsum, hnn⟩ :=
        summaryErrors_nil_not_null (validateTestRun_ok_parts h₁).2.2.2
      have hc := ingest_valid_created now h₁ hsum (by rw [h₂]; exact hk)
      have hmatch : keyMatches p rid (builtTestRun now p (jfield body "run_id")
          (jfield body "environment") (jfield body "timestamp") u
          (jfield body "test_suites")) = true :=
        (keyMatches_iff _ _ _).2 ⟨rfl, h₂⟩
      have hkey₁ : keyPresent (store ++ [builtTestRun now p (jfield body "run_id")
          (jfield body "environment") (jfield body "timestamp") u
          (jfield body "test_suites")]) p rid = true := by
        rw [keyPresent_append, hk]
        simp [keyPresent, hmatch]
      have hrest := ingestSeq_all_duplicate pd p rid _ rest
        (fun r hr => hv r (by simp [hr])) hkey₁
      simp only [ingestSeq, hc, hrest]
      refine ⟨?_, ?_, ?_⟩
      · simp [List.countP_cons, countP_map_const, countP_replicate,
          responseIsCreated, responseIsDuplicate]
      · simp [List.countP_cons, countP_map_const, countP_replicate,
          responseIsCreated, responseIsDuplicate]
      · rw [List.filter_append, hfilter]
        simp [List.filter_cons, hmatch]

/-- C3, witness: two identical submissions of `tr_build_42` produce
one Created, one Duplicate, and a single stored record. -/
theorem concurrent_same_key_one_created_witness :
    ((ingestSeq anyDateOk "p1" [] [(0, sampleBody), (1, sampleBody)]).1.countP
      responseIsCreated) = 1 ∧
    ((ingestSeq anyDateOk "p1" [] [(0, sampleBody), (1, sampleBody)]).1.countP
      responseIsDuplicate) = 1 ∧
    (((ingestSeq anyDateOk "p1" [] [(0, sampleBody), (1, sampleBody)]).2.filter
      (keyMatches "p1" (some (.str "tr_build_42")))).length = 1) := by
  have h := concurrent_same_key_one_created anyDateOk "p1"
    (some (.str "tr_build_42")) [] [(0, sampleBody), (1, sampleBody)]
    (by
      intro r hr
      rcases List.mem_cons.1 hr with h | h
      · subst h; exact ⟨by decide, rfl⟩
      · rcases List.mem_cons.1 h with h' | h'
        · subst h'; exact ⟨by decide, rfl⟩
        · exact absurd h' (List.not_mem_nil r))
    rfl rfl (by simp)
  exact h

/-! Validator claims (C6, C7) -/

/-- C6: violations are collected across sibling fields — whenever the
`environment` rule fails and the `summary.passed` rule fails (on a truthy
summary object), the returned error list reports both problems at once;
neither suppresses the other. -/
theorem validation_reports_sibling_violations
    (pd : String → Bool) (data : List (String × JsVal)) (es : List String)
    (henv : environmentErrors (jfield data "environment") ≠ [])
    (ht : truthyOpt (jfield data "summary") = true)
    (ho : isObjTypeOpt (jfield data "summary") = true)
    (hpassed : nonNegNumErrors (jpropOpt (jfield data "summary") "passed")
      (summaryCounterMsg "passed") ≠ [])
    (h : validateTestRun pd data = some es) :
    envReqMsg ∈ es ∧ summaryCounterMsg "passed" ∈ es := by
  obtain ⟨se, hts, he⟩ := validateTestRun_parts h
  subst he
  have he₁ : environmentErrors (jfield data "environment") = [envReqMsg] :=
    (environmentErrors_cases _).resolve_left henv
  have hmem := summaryErrors_mem_passed ht ho hpassed
  constructor
  · simp [he₁, List.mem_append]
  · simp only [List.mem_append]
    tauto

/-- C6, witness: a payload missing `environment` whose
`summary.passed` is the string `"2"` is reported with both errors
simultaneously. -/
theorem validation_reports_sibling_violations_witness :
    envReqMsg ∈ [envReqMsg, summaryCounterMsg "passed"] ∧
    summaryCounterMsg "passed" ∈ [envReqMsg, summaryCounterMsg "passed"] :=
  validation_reports_sibling_violations anyDateOk twoViolationsBody
    [envReqMsg, summaryCounterMsg "passed"] (by decide) (by decide)
    (by decide) (by decide) (by decide)

/-- C7 (amended): validation succeeds only if `run_id` is a string
that is non-empty after trimming, carries the `tr_` namespace, and has at
least one character after it; conversely, every payload whose `run_id` is
a non-empty string with non-blank trim but without the namespace receives
the namespace-rule error.  (A missing, non-string, empty or
whitespace-only `run_id` is reported by an earlier rule of the cascade
instead of the namespace rule.) -/
theorem runId_namespace_rule (pd : String → Bool)
    (data : List (String × JsVal)) (es : List String)
    (h : validateTestRun pd data = some es) :
    (es = [] → ∃ s, jfield data "run_id" = some (.str s) ∧
      (jsTrim s).length ≠ 0 ∧ charsStartWith s.data "tr_".data = true ∧
      4 ≤ s.data.length) ∧
    (∀ s, jfield data "run_id" = some (.str s) → (s == "") = false →
      (jsTrim s).length ≠ 0 → charsStartWith s.data "tr_".data = false →
      runIdNamespaceMsg ∈ es) := by
  constructor
  · intro hnil
    rw [hnil] at h
    exact runIdErrors_nil (validateTestRun_ok_parts h).1
  · intro s hs hne htrim hns
    obtain ⟨se, hts, he⟩ := validateTestRun_parts h
    have hr : runIdErrors (jfield data "run_id") = [runIdNamespaceMsg] := by
      rw [hs]
      unfold runIdErrors
      have hcond : (!truthyOpt (some (JsVal.str s)) ||
          !isStringOpt (some (JsVal.str s))) = false := by
        simp [truthyOpt, truthy, isStringOpt, hne]
      rw [hcond]
      show (if ((jsTrim s).length == 0) = true then [runIdEmptyMsg]
          else if (!charsStartWith s.data "tr_".data) = true then [runIdNamespaceMsg]
          else if s.data.length < 4 then [runIdLenMsg] else []) = [runIdNamespaceMsg]
      rw [if_neg (by simpa using htrim), if_pos (by simp [hns])]
    subst he
    simp [hr, List.mem_append]

/-- C7, counterexample: a payload whose `run_id` is the whitespace
string `" "` lacks the `tr_` namespace, yet its error list cites only the
emptiness rule — the namespace-rule error is absent, refuting the claim
that every payload whose `run_id` lacks the namespace gets that error. -/
theorem runId_namespace_rule_cex :
    charsStartWith (" ").data "tr_".data = false ∧
    validateTestRun anyDateOk blankIdBody =
      some [runIdEmptyMsg, envReqMsg, tsReqMsg, summaryObjMsg] ∧
    runIdNamespaceMsg ∉ [runIdEmptyMsg, envReqMsg, tsReqMsg, summaryObjMsg] := by
  refine ⟨by decide, by decide, by decide⟩

/-- C7, witness: the only-if direction at the valid body for
`tr_build_42`, and the converse at the `bad-id` payload, whose error list
contains the namespace-rule error. -/
theorem runId_namespace_rule_witness :
    (∃ s, jfield sampleBody "run_id" = some (.str s) ∧
      (jsTrim s).length ≠ 0 ∧ charsStartWith s.data "tr_".data = true ∧
      4 ≤ s.data.length) ∧
    runIdNamespaceMsg ∈ [runIdNamespaceMsg, envReqMsg, tsReqMsg, summaryObjMsg] := by
  constructor
  · exact (runId_namespace_rule anyDateOk sampleBody [] (by decide)).1 rfl
  · exact (runId_namespace_rule anyDateOk badIdBody
      [runIdNamespaceMsg, envReqMsg, tsReqMsg, summaryObjMsg]
      (by decide)).2 "bad-id" rfl (by decide) (by decide) (by decide)

/-! Model normalisation (C10) -/

theorem jsOrElse_falsy {v : Option JsVal} (d : JsVal) (h : truthyOpt v = false) :
    jsOrElse v d = d := by
  cases v with
  | none => rfl
  | some u =>
      have : truthy u = false := h
      simp [jsOrElse, this]

theorem jsOrElse_num {c : Option JsVal} {n : Int} (h : c = some (.num n)) :
    jsOrElse c (.num 0) = .num n := by
  subst h
  by_cases h0 : n = 0
  · simp [jsOrElse, truthy, h0]
  · simp [jsOrElse, truthy, h0]

theorem nonNegNumErrors_nil {c : Option JsVal} {msg : String}
    (h : nonNegNumErrors c msg = []) : ∃ n, c = some (.num n) ∧ 0 ≤ n := by
  match c, h with
  | some (.num n), h =>
      have h' : (if n < 0 then [msg] else []) = [] := h
      by_cases hn : n < 0
      · rw [if_pos hn] at h'; cases h'
      · exact ⟨n, rfl, by omega⟩

theorem summaryErrors_nil_split {v : Option JsVal} (h : summaryErrors v = []) :
    nonNegNumErrors (jpropOpt v "total_test_cases") (summaryCounterMsg "total_test_cases") = [] ∧
    nonNegNumErrors (jpropOpt v "passed") (summaryCounterMsg "passed") = [] ∧
    nonNegNumErrors (jpropOpt v "failed") (summaryCounterMsg "failed") = [] ∧
    nonNegNumErrors (jpropOpt v "flaky") (summaryCounterMsg "flaky") = [] ∧
    nonNegNumErrors (jpropOpt v "skipped") (summaryCounterMsg "skipped") = [] ∧
    nonNegNumErrors (jpropOpt v "duration_ms") (summaryCounterMsg "duration_ms") = [] := by
  unfold summaryErrors at h
  by_cases hc : (!truthyOpt v || !isObjTypeOpt v) = true
  · rw [if_pos hc] at h; cases h
  · rw [if_neg hc] at h
    simpa [List.append_eq_nil, and_assoc] using h

theorem environmentErrors_nil {v : Option JsVal} (h : environmentErrors v = []) :
    ∃ s, v = some (.str s) ∧ (s == "") = false := by
  unfold environmentErrors at h
  by_cases hc : (!truthyOpt v || !isStringOpt v) = true
  · rw [if_pos hc] at h; cases h
  · have hc' : truthyOpt v = true ∧ isStringOpt v = true := by
      simpa [not_or] using hc
    obtain ⟨s, rfl⟩ := isStringOpt_shape hc'.2
    refine ⟨s, rfl, ?_⟩
    simpa [truthyOpt, truthy] using hc'.1

theorem validateTestRun_ok_suites {pd : String → Bool}
    {data : List (String × JsVal)} (h : validateTestRun pd data = some []) :
    testSuitesErrors (jfield data "test_suites") = some [] := by
  obtain ⟨se, hts, he⟩ := validateTestRun_parts h
  have hse : se = [] := by
    have h0 := he.symm
    simp only [List.append_eq_nil] at h0
    exact h0.2
  rwa [hse] at hts

theorem testSuitesErrors_some_nil (v : JsVal)
    (h : testSuitesErrors (some v) = some []) : ∃ l, v = .arr l := by
  cases v with
  | arr l => exact ⟨l, rfl⟩
  | str s => simp [testSuitesErrors] at h
  | num n => simp [testSuitesErrors] at h
  | boolean b => simp [testSuitesErrors] at h
  | null => simp [testSuitesErrors] at h
  | obj kvs => simp [testSuitesErrors] at h

/-- C10: the run model silently normalises its (unvalidated) input —
`'unknown'` for a missing or falsy environment, `0` for each missing or
falsy summary counter, `[]` for a missing `test_suites` — and on every
payload that passed validation the stored document's fields equal the
submitted ones. -/
theorem testRun_model_normalisation (pd : String → Bool) :
    (∀ (now : Nat) (p : String) (runId env ts suites : Option JsVal)
      (u : JsVal) (tr : StoredTestRun), u ≠ JsVal.null →
      buildTestRun now p runId env ts (some u) suites = some tr →
        (truthyOpt env = false → tr.environment = .str "unknown") ∧
        (truthyOpt (jprop u "total_test_cases") = false →
          tr.summary.total_test_cases = .num 0) ∧
        (truthyOpt (jprop u "passed") = false → tr.summary.passed = .num 0) ∧
        (truthyOpt (jprop u "failed") = false → tr.summary.failed = .num 0) ∧
        (truthyOpt (jprop u "flaky") = false → tr.summary.flaky = .num 0) ∧
        (truthyOpt (jprop u "skipped") = false → tr.summary.skipped = .num 0) ∧
        (truthyOpt (jprop u "duration_ms") = false →
          tr.summary.duration_ms = .num 0) ∧
        (suites = none → tr.test_suites = .arr [])) ∧
    (∀ (data : List (String × JsVal)) (now : Nat) (p : String)
      (tr : StoredTestRun),
      validateTestRun pd data = some [] →
      buildTestRun now p (jfield data "run_id") (jfield data "environment")
        (jfield data "timestamp") (jfield data "summary")
        (jfield data "test_suites") = some tr →
        jfield data "environment" = some tr.environment ∧
        jpropOpt (jfield data "summary") "total_test_cases" =
          some tr.summary.total_test_cases ∧
        jpropOpt (jfield data "summary") "passed" = some tr.summary.passed ∧
        jpropOpt (jfield data "summary") "failed" = some tr.summary.failed ∧
        jpropOpt (jfield data "summary") "flaky" = some tr.summary.flaky ∧
        jpropOpt (jfield data "summary") "skipped" = some tr.summary.skipped ∧
        jpropOpt (jfield data "summary") "duration_ms" =
          some tr.summary.duration_ms ∧
        (∀ v, jfield data "test_suites" = some v → tr.test_suites = v)) := by
  constructor
  · intro now p runId env ts suites u tr hnn hb
    rw [buildTestRun_some hnn] at hb
    cases hb
    refine ⟨fun he => ?_, fun h1 => ?_, fun h2 => ?_, fun h3 => ?_,
      fun h4 => ?_, fun h5 => ?_, fun h6 => ?_, fun h7 => ?_⟩
    · exact jsOrElse_falsy _ he
    · exact jsOrElse_falsy _ h1
    · exact jsOrElse_falsy _ h2
    · exact jsOrElse_falsy _ h3
    · exact jsOrElse_falsy _ h4
    · exact jsOrElse_falsy _ h5
    · exact jsOrElse_falsy _ h6
    · subst h7; rfl
  · intro data now p tr hval hb
    obtain ⟨hrun, henv, hts, hsum⟩ := validateTestRun_ok_parts hval
    obtain ⟨u, hu, hnn⟩ := summaryErrors_nil_not_null hsum
    rw [hu, buildTestRun_some hnn] at hb
    cases hb
    obtain ⟨s, hes, hsne⟩ := environmentErrors_nil henv
    obtain ⟨c₁, c₂, c₃, c₄, c₅, c₆⟩ := summaryErrors_nil_split hsum
    obtain ⟨n₁, hn₁, _⟩ := nonNegNumErrors_nil c₁
    obtain ⟨n₂, hn₂, _⟩ := nonNegNumErrors_nil c₂
    obtain ⟨n₃, hn₃, _⟩ := nonNegNumErrors_nil c₃
    obtain ⟨n₄, hn₄, _⟩ := nonNegNumErrors_nil c₄
    obtain ⟨n₅, hn₅, _⟩ := nonNegNumErrors_nil c₅
    obtain ⟨n₆, hn₆, _⟩ := nonNegNumErrors_nil c₆
    rw [hu] at hn₁ hn₂ hn₃ hn₄ hn₅ hn₆
    simp only [jpropOpt] at hn₁ hn₂ hn₃ hn₄ hn₅ hn₆
    refine ⟨?_, ?_, ?_, ?_, ?_, ?_, ?_, ?_⟩
    · rw [hes]
      have : truthy (JsVal.str s) = true := by simp [truthy, hsne]
      simp [builtTestRun, jsOrElse, hes, this]
    · rw [hu]
      show jprop u "total_test_cases" = some (jsOrElse (jprop u "total_test_cases") (JsVal.num 0))
      rw [hn₁, jsOrElse_num rfl]
    · rw [hu]
      show jprop u "passed" = some (jsOrElse (jprop u "passed") (JsVal.num 0))
      rw [hn₂, jsOrElse_num rfl]
    · rw [hu]
      show jprop u "failed" = some (jsOrElse (jprop u "failed") (JsVal.num 0))
      rw [hn₃, jsOrElse_num rfl]
    · rw [hu]
      show jprop u "flaky" = some (jsOrElse (jprop u "flaky") (JsVal.num 0))
      rw [hn₄, jsOrElse_num rfl]
    · rw [hu]
      show jprop u "skipped" = some (jsOrElse (jprop u "skipped") (JsVal.num 0))
      rw [hn₅, jsOrElse_num rfl]
    · rw [hu]
      show jprop u "duration_ms" = some (jsOrElse (jprop u "duration_ms") (JsVal.num 0))
      rw [hn₆, jsOrElse_num rfl]
    · intro v hv
      obtain ⟨l, hl⟩ := testSuitesErrors_some_nil v
        (by rw [← hv]; exact validateTestRun_ok_suites hval)
      subst hl
      simp [builtTestRun, hv, jsOrElse, truthy]

/-- C10, witness: a record built from an unvalidated input with a
falsy environment, `summary.passed = 0` and no `test_suites` receives the
defaults, and on the valid example body the stored environment equals the
submitted one. -/
theorem testRun_model_normalisation_witness :
    (builtTestRun 0 "p1" (some (.str "tr_x")) none none
      (.obj [("passed", .num 0)]) none).environment = .str "unknown" ∧
    (builtTestRun 0 "p1" (some (.str "tr_x")) none none
      (.obj [("passed", .num 0)]) none).summary.passed = .num 0 ∧
    (builtTestRun 0 "p1" (some (.str "tr_x")) none none
      (.obj [("passed", .num 0)]) none).test_suites = .arr [] ∧
    jfield sampleBody "environment" =
      some (builtTestRun 0 "p1" (jfield sampleBody "run_id")
        (jfield sampleBody "environment") (jfield sampleBody "timestamp")
        sampleSummary (jfield sampleBody "test_suites")).environment := by
  obtain ⟨h₁, h₂⟩ := testRun_model_normalisation anyDateOk
  have ha := h₁ 0 "p1" (some (.str "tr_x")) none none none
    (.obj [("passed", .num 0)])
    (builtTestRun 0 "p1" (some (.str "tr_x")) none none
      (.obj [("passed", .num 0)]) none)
    (fun hh => nomatch hh) rfl
  have hb := h₂ sampleBody 0 "p1"
    (builtTestRun 0 "p1" (jfield sampleBody "run_id")
      (jfield sampleBody "environment") (jfield sampleBody "timestamp")
      sampleSummary (jfield sampleBody "test_suites"))
    (by decide) rfl
  exact ⟨ha.1 rfl, ha.2.2.1 rfl, ha.2.2.2.2.2.2.2 rfl, hb.1⟩

/-! Credential store (C8, C9) -/

theorem charsStartWith_append (pre rest : List Char) :
    charsStartWith (pre ++ rest) pre = true := by
  induction pre with
  | nil => cases rest <;> rfl
  | cons c cs ih => simp [charsStartWith, ih]

theorem authenticateToken_bearer (bverify : String → String → Bool)
    (store : List ApiTokenRec) (t : String) :
    authenticateToken bverify store (some ("Bearer " ++ t)) =
      if t = "" then .unauthorized "Token is empty"
      else
        match ApiTokenAuthenticate bverify store t with
        | some (tid, pid) => .authed tid pid
        | none => .unauthorized "Invalid token" := by
  unfold authenticateToken
  have hsw : charsStartWith ("Bearer " ++ t).data "Bearer ".data = true := by
    rw [String.data_append]
    exact charsStartWith_append _ _
  have hdrop : ("Bearer " ++ t).data.drop 7 = t.data := by
    rw [String.data_append]
    rw [show (7 : Nat) = ("Bearer ".data).length from rfl, List.drop_left]
  simp only [hsw, Bool.not_true, Bool.false_eq_true, if_false, hdrop]
  by_cases h0 : t = ""
  · subst h0
    rfl
  · rw [if_neg h0]
    have hne : (String.mk t.data == "") = false := beq_eq_false_iff_ne.mpr h0
    rw [hne]
    rfl

/-- C8: issuing a credential for a project persists its hash and the
issued raw token afterwards resolves to exactly that project and
credential id; every presented token whose slow-hash comparison fails
against every stored hash resolves to not-found, and the authentication
middleware answers it with Unauthorized.  (`bhash`/`bverify` stand for
`bcrypt.hash`/`bcrypt.compare`; the hypotheses are bcrypt's contract:
a token verifies against its own fresh hash, and the new token matches
none of the previously stored hashes.) -/
theorem credential_roundtrip
    (bhash : String → Nat → String) (bverify : String → String → Bool)
    (store : List ApiTokenRec) (p tid raw : String) (salt now : Nat)
    (hround : bverify raw (bhash raw salt) = true)
    (hfresh : ∀ r ∈ store, bverify raw r.token_hash = false)
    (hhash : store.any (fun r => r.token_hash == bhash raw salt) = false) :
    ∃ issued store',
      ApiTokenCreate bhash store p tid raw salt now = some (issued, store') ∧
      ApiTokenAuthenticate bverify store' raw = some (tid, p) ∧
      ∀ t', (∀ r ∈ store', bverify t' r.token_hash = false) →
        ApiTokenAuthenticate bverify store' t' = none ∧
        ∃ msg, authenticateToken bverify store' (some ("Bearer " ++ t')) =
          .unauthorized msg := by
  have hcreate : ApiTokenCreate bhash store p tid raw salt now =
      some ({ id := tid, project_id := p, token := raw,
              token_hash := bhash raw salt },
        store ++ [{ id := tid, project_id := p, token_hash := bhash raw salt,
                    created_at := now }]) := by
    unfold ApiTokenCreate
    rw [if_neg (by simp [hhash])]
  refine ⟨_, _, hcreate, ?_, ?_⟩
  · unfold ApiTokenAuthenticate
    rw [List.find?_append]
    have h₁ : store.find? (fun r => bverify raw r.token_hash) = none :=
      List.find?_eq_none.2 (fun r hr => by simp [hfresh r hr])
    rw [h₁]
    simp [List.find?_cons, hround]
  · intro t' hall
    have hfind : ApiTokenAuthenticate bverify
        (store ++ [{ id := tid, project_id := p, token_hash := bhash raw salt,
                     created_at := now }]) t' = none := by
      unfold ApiTokenAuthenticate
      rw [List.find?_eq_none.2 (fun r hr => by simp [hall r hr])]
      rfl
    refine ⟨hfind, ?_⟩
    rw [authenticateToken_bearer]
    by_cases h0 : t' = ""
    · exact ⟨"Token is empty", by rw [if_pos h0]⟩
    · refine ⟨"Invalid token", ?_⟩
      rw [if_neg h0, hfind]

/-- C8, witness: with a concrete hash scheme, token `tok` issued for
`p1` resolves back to `p1`, and the one-character-different token `tok2`
fails resolution and is answered with Unauthorized. -/
theorem credential_roundtrip_witness :
    ∃ issued store',
      ApiTokenCreate sampleHash [] "p1" "tid1" "tok" 0 0 =
        some (issued, store') ∧
      ApiTokenAuthenticate sampleVerify store' "tok" = some ("tid1", "p1") ∧
      ApiTokenAuthenticate sampleVerify store' "tok2" = none ∧
      ∃ msg, authenticateToken sampleVerify store' (some ("Bearer " ++ "tok2")) =
        .unauthorized msg := by
  obtain ⟨issued, store', h₁, h₂, h₃⟩ :=
    credential_roundtrip sampleHash sampleVerify [] "p1" "tid1" "tok" 0 0
      (by decide) (fun r hr => absurd hr (List.not_mem_nil r)) rfl
  have hstore : store' =
      [{ id := "tid1", project_id := "p1",
         token_hash := sampleHash "tok" 0, created_at := 0 }] := by
    have h' := h₁.symm.trans
      (show ApiTokenCreate sampleHash [] "p1" "tid1" "tok" 0 0 =
          some ({ id := "tid1", project_id := "p1", token := "tok",
                  token_hash := sampleHash "tok" 0 },
            [{ id := "tid1", project_id := "p1",
               token_hash := sampleHash "tok" 0, created_at := 0 }]) from rfl)
    exact congrArg (fun x => (x.getD (issued, store')).2) h'
  obtain ⟨h₄, h₅⟩ := h₃ "tok2" (by
    intro r hr
    rw [hstore] at hr
    rcases List.mem_cons.1 hr with h | h
    · subst h; decide
    · exact absurd h (List.not_mem_nil r))
  exact ⟨issued, store', h₁, h₂, h₄, h₅⟩

/-- C9: a credential-issuance call writes exactly one record
`{id, project_id, token_hash, created_at}` to the store — the raw token
appears in stored state only through its hash (a raw with an equal hash
writes the identical store) — and the raw token itself is returned
exactly once, in the result of the issuing call. -/
theorem credential_store_hash_only
    (bhash : String → Nat → String) (store : List ApiTokenRec)
    (p tid raw : String) (salt now : Nat) (issued : IssuedToken)
    (store' : List ApiTokenRec)
    (h : ApiTokenCreate bhash store p tid raw salt now = some (issued, store')) :
    store' = store ++
      [{ id := tid, project_id := p,
         token_hash := bhash raw salt, created_at := now }] ∧
    issued = { id := tid, project_id := p, token := raw,
               token_hash := bhash raw salt } ∧
    ∀ raw', bhash raw' salt = bhash raw salt →
      ApiTokenCreate bhash store p tid raw' salt now =
        some ({ id := tid, project_id := p, token := raw',
                token_hash := bhash raw' salt }, store') := by
  unfold ApiTokenCreate at h
  by_cases hc : (store.any (fun r => r.token_hash == bhash raw salt)) = true
  · rw [if_pos hc] at h; cases h
  · rw [if_neg hc] at h
    have h' := Option.some.inj h
    refine ⟨(congrArg Prod.snd h').symm, (congrArg Prod.fst h').symm, ?_⟩
    intro raw' hh
    unfold ApiTokenCreate
    have hs : store ++
        [{ id := tid, project_id := p, token_hash := bhash raw salt,
           created_at := now }] = store' := congrArg Prod.snd h'
    rw [hh, if_neg hc, hs]

/-- C9, witness: the concrete issuance of `tok` for `p1` writes
exactly the four-field record and returns the raw token once. -/
theorem credential_store_hash_only_witness :
    ([{ id := "tid1", project_id := "p1", token_hash := sampleHash "tok" 0,
        created_at := 0 }] : List ApiTokenRec) =
      [] ++
        [{ id := "tid1", project_id := "p1",
           token_hash := sampleHash "tok" 0, created_at := 0 }] ∧
    ({ id := "tid1", project_id := "p1", token := "tok",
       token_hash := sampleHash "tok" 0 } : IssuedToken) =
      { id := "tid1", project_id := "p1", token := "tok",
        token_hash := sampleHash "tok" 0 } := by
  obtain ⟨h₁, h₂, _⟩ := credential_store_hash_only sampleHash [] "p1" "tid1"
    "tok" 0 0
    { id := "tid1", project_id := "p1", token := "tok",
      token_hash := sampleHash "tok" 0 }
    [{ id := "tid1", project_id := "p1", token_hash := sampleHash "tok" 0,
       created_at := 0 }] rfl
  exact ⟨h₁, h₂⟩

end Backend
